import Mathlib

/-!
Shallow embedding of `server/services/store/sqlstore/workspaces.go` of the
focalboard repository, together with proofs of the specification claims
about it.

The database is modelled as explicit state: a list of rows per table
(`workspaces`, `ChannelMembers`, `Channels`, `focalboard_blocks`).  The SQL
built through the squirrel query builder is interpreted at the level of its
relational semantics when the built fragment is valid SQL: an upsert is
insert-or-update keyed on the primary key, and the `GetUserWorkspaces`
select is a left join / inner join / group-by pipeline.  The per-dialect
`nonTemplateFilter` fragments differ in kind: the PostgreSQL branch is a
valid JSON text-extraction equality (`->>`), interpreted as a predicate on
the `fields` blob, while the MySQL branch's `LIKE` pattern is written
without the surrounding quotes in the Go source, so the fragment it
contributes is not valid MySQL and executing the built query fails with a
syntax error; the model keeps that fragment as an `invalidSQL` marker whose
execution is the query-error path.  `encoding/json` is modelled by an
executable renderer and parser over a generic Go value type; values Go
cannot encode (funcs, channels, ...) are the `unencodable` constructor.
Fallible operations return `Except`; write operations also return the
resulting database state, with the input state returned unchanged on the
error path.
-/

namespace Focalboard

/-- Generic Go value (`interface\x7b\x7d`) as seen by `encoding/json`: JSON
scalars, arrays and string-keyed objects, plus `unencodable` for values
`json.Marshal` rejects (functions, channels, complex numbers, ...). -/
inductive GoValue where
  | jnull
  | jbool (b : Bool)
  | jnum (n : Int)
  | jstr (s : String)
  | jarr (elems : List GoValue)
  | jobj (entries : List (String × GoValue))
  | unencodable (desc : String)

/-- Escape of one character inside a JSON string literal (quote and
backslash only; the model does not need control-character escapes). -/
def escapeJSONChar (c : Char) : String :=
  if c == '\\' then "\\\\" else if c == '"' then "\\\"" else String.singleton c

/-- Escape of a whole string for inclusion in a JSON document. -/
def escapeJSONString (s : String) : String :=
  String.join (s.toList.map escapeJSONChar)

mutual

/-- Model of Go `json.Marshal`: renders a value to its JSON text, `none`
when the value contains an unencodable node. -/
def renderGoValue : GoValue → Option String
  | GoValue.jnull => some "null"
  | GoValue.jbool true => some "true"
  | GoValue.jbool false => some "false"
  | GoValue.jnum n => some (toString n)
  | GoValue.jstr s => some ("\"" ++ escapeJSONString s ++ "\"")
  | GoValue.jarr elems => (renderGoList elems).map (fun body => "[" ++ body ++ "]")
  | GoValue.jobj entries =>
      (renderGoEntries entries).map (fun body => "\x7b" ++ body ++ "\x7d")
  | GoValue.unencodable _ => none

/-- Renders the comma-separated bodies of a JSON array. -/
def renderGoList : List GoValue → Option String
  | [] => some ""
  | [v] => renderGoValue v
  | v :: rest => do
      let hd ← renderGoValue v
      let tl ← renderGoList rest
      pure (hd ++ "," ++ tl)

/-- Renders the comma-separated bodies of a JSON object. -/
def renderGoEntries : List (String × GoValue) → Option String
  | [] => some ""
  | [(k, v)] =>
      (renderGoValue v).map (fun rv => "\"" ++ escapeJSONString k ++ "\":" ++ rv)
  | (k, v) :: rest => do
      let rv ← renderGoValue v
      let tl ← renderGoEntries rest
      pure ("\"" ++ escapeJSONString k ++ "\":" ++ rv ++ "," ++ tl)

end

/-- Whitespace skipping for the JSON reader. -/
def skipWS : List Char → List Char
  | [] => []
  | c :: cs =>
      if c == ' ' || c == '\n' || c == '\t' || c == '\r' then skipWS cs else c :: cs

/-- Unescaping of the character following a backslash in a JSON string. -/
def unescapeChar (c : Char) : Char :=
  if c == 'n' then '\n' else if c == 't' then '\t' else if c == 'r' then '\r' else c

/-- Reads a JSON string body (after the opening quote) up to the closing
quote, handling backslash escapes. -/
def parseJStrBody : List Char → Option (String × List Char)
  | [] => none
  | c :: cs =>
      if c == '"' then some ("", cs)
      else if c == '\\' then
        match cs with
        | [] => none
        | e :: cs2 =>
            (parseJStrBody cs2).map
              (fun p => (String.singleton (unescapeChar e) ++ p.1, p.2))
      else (parseJStrBody cs).map (fun p => (String.singleton c ++ p.1, p.2))

/-- Splits the longest leading run of decimal digits off a char list. -/
def takeDigits : List Char → List Char × List Char
  | [] => ([], [])
  | c :: cs =>
      if c.isDigit then
        let p := takeDigits cs
        (c :: p.1, p.2)
      else ([], c :: cs)

/-- Numeric value of a digit run. -/
def digitsToNat (ds : List Char) : Nat :=
  ds.foldl (fun n c => n * 10 + (c.toNat - 48)) 0

/-- Reads a nonempty run of digits as a natural number. -/
def parseDigits (cs : List Char) : Option (Nat × List Char) :=
  let p := takeDigits cs
  if p.1.isEmpty then none else some (digitsToNat p.1, p.2)

/-- The opening-brace character, kept out of string literals. -/
def lbraceChar : Char := Char.ofNat 123

/-- The closing-brace character, kept out of string literals. -/
def rbraceChar : Char := Char.ofNat 125

/-- Reads one JSON atom: null, booleans, integers and strings. -/
def parseAtom (cs : List Char) : Option (GoValue × List Char) :=
  if "null".toList.isPrefixOf cs then some (GoValue.jnull, cs.drop 4)
  else if "true".toList.isPrefixOf cs then some (GoValue.jbool true, cs.drop 4)
  else if "false".toList.isPrefixOf cs then some (GoValue.jbool false, cs.drop 5)
  else
    match cs with
    | [] => none
    | c :: cs1 =>
        if c == '"' then
          (parseJStrBody cs1).map (fun p => (GoValue.jstr p.1, p.2))
        else if c == '-' then
          (parseDigits cs1).map (fun p => (GoValue.jnum (-(p.1 : Int)), p.2))
        else if c.isDigit then
          (parseDigits cs).map (fun p => (GoValue.jnum (p.1 : Int), p.2))
        else none

/-- Partially built JSON container on the reader's stack: an array with the
elements read so far, or an object with the entries read so far and the key
whose value is being read. -/
inductive PFrame where
  | arr (acc : List GoValue)
  | obj (acc : List (String × GoValue)) (key : String)

/-- Result of delivering a finished value to the enclosing container:
either the whole document is finished, or reading continues with another
array element or another object key. -/
inductive EmitStep where
  | done (v : GoValue) (rest : List Char)
  | moreArr (stack : List PFrame) (rest : List Char)
  | moreObj (acc : List (String × GoValue)) (stack : List PFrame) (rest : List Char)
  | fail

/-- Delivers a finished value into the enclosing container frames, closing
containers whose terminator follows immediately. -/
def emitValue : GoValue → List PFrame → List Char → EmitStep
  | v, [], cs => EmitStep.done v cs
  | v, PFrame.arr acc :: stack, cs =>
      match skipWS cs with
      | [] => EmitStep.fail
      | c :: cs2 =>
          if c == ',' then EmitStep.moreArr (PFrame.arr (acc ++ [v]) :: stack) cs2
          else if c == ']' then emitValue (GoValue.jarr (acc ++ [v])) stack cs2
          else EmitStep.fail
  | v, PFrame.obj acc key :: stack, cs =>
      match skipWS cs with
      | [] => EmitStep.fail
      | c :: cs2 =>
          if c == ',' then EmitStep.moreObj (acc ++ [(key, v)]) stack cs2
          else if c == rbraceChar then
            emitValue (GoValue.jobj (acc ++ [(key, v)])) stack cs2
          else EmitStep.fail

/-- Reads an object key (a quoted string followed by a colon). -/
def parseObjKey (cs : List Char) : Option (String × List Char) :=
  match skipWS cs with
  | [] => none
  | c :: cs1 =>
      if c == '"' then
        match parseJStrBody cs1 with
        | none => none
        | some (key, cs2) =>
            match skipWS cs2 with
            | [] => none
            | c3 :: cs3 => if c3 == ':' then some (key, cs3) else none
      else none

/-- Main JSON reading loop, fuel-indexed so that it is structurally
recursive (and so computes by `rfl`/`decide`).  `stack` holds the partially
built containers. -/
def parseLoop : Nat → List PFrame → List Char → Option (GoValue × List Char)
  | 0, _, _ => none
  | fuel + 1, stack, cs =>
      match skipWS cs with
      | [] => none
      | c :: cs1 =>
          if c == '[' then
            match skipWS cs1 with
            | [] => none
            | c2 :: cs2 =>
                if c2 == ']' then
                  match emitValue (GoValue.jarr []) stack cs2 with
                  | EmitStep.done v r => some (v, r)
                  | EmitStep.moreArr stack2 r => parseLoop fuel stack2 r
                  | EmitStep.moreObj acc stack2 r =>
                      match parseObjKey r with
                      | some (key, r2) => parseLoop fuel (PFrame.obj acc key :: stack2) r2
                      | none => none
                  | EmitStep.fail => none
                else parseLoop fuel (PFrame.arr [] :: stack) cs1
          else if c == lbraceChar then
            match skipWS cs1 with
            | [] => none
            | c2 :: cs2 =>
                if c2 == rbraceChar then
                  match emitValue (GoValue.jobj []) stack cs2 with
                  | EmitStep.done v r => some (v, r)
                  | EmitStep.moreArr stack2 r => parseLoop fuel stack2 r
                  | EmitStep.moreObj acc stack2 r =>
                      match parseObjKey r with
                      | some (key, r2) => parseLoop fuel (PFrame.obj acc key :: stack2) r2
                      | none => none
                  | EmitStep.fail => none
                else
                  match parseObjKey cs1 with
                  | some (key, r2) => parseLoop fuel (PFrame.obj [] key :: stack) r2
                  | none => none
          else
            match parseAtom (c :: cs1) with
            | none => none
            | some (v, rest) =>
                match emitValue v stack rest with
                | EmitStep.done v2 r => some (v2, r)
                | EmitStep.moreArr stack2 r => parseLoop fuel stack2 r
                | EmitStep.moreObj acc stack2 r =>
                    match parseObjKey r with
                    | some (key, r2) => parseLoop fuel (PFrame.obj acc key :: stack2) r2
                    | none => none
                | EmitStep.fail => none

/-- Model of parsing a whole JSON document: the reader must consume the
entire input up to trailing whitespace. -/
def jsonParse (s : String) : Option GoValue :=
  match parseLoop (s.length + 1) [] s.toList with
  | some (v, rest) => if (skipWS rest).isEmpty then some v else none
  | none => none

/-- Model of Go `json.Unmarshal` into a `map[string]interface\x7b\x7d`:
the document must be a JSON object. -/
def jsonUnmarshalObj (s : String) : Option (List (String × GoValue)) :=
  match jsonParse s with
  | some (GoValue.jobj entries) => some entries
  | _ => none

/-! ## Data model: table rows, store state, record types -/

/-- Row of the `workspaces` table: `id, signup_token, settings, modified_by,
update_at`.  The `settings` column is nullable JSON-capable text. -/
structure WorkspaceRow where
  id : String
  signup_token : String
  settings : Option String
  modified_by : String
  update_at : Int

/-- Row of the `ChannelMembers` table. -/
structure ChannelMemberRow where
  userId : String
  channelId : String
deriving DecidableEq

/-- Row of the `Channels` table. -/
structure ChannelRow where
  id : String
  displayName : String
deriving DecidableEq

/-- Row of the `focalboard_blocks` table, restricted to the columns the
join reads: `id, workspace_id, type, fields` (JSON-capable text). -/
structure BlockRow where
  id : String
  workspace_id : String
  type : String
  fields : String
deriving DecidableEq

/-- The database state: one list of rows per table touched by this file. -/
structure DBState where
  workspaces : List WorkspaceRow
  channelMembers : List ChannelMemberRow
  channels : List ChannelRow
  blocks : List BlockRow

/-- In-memory record `model.Workspace`: identifier, signup token, settings
map, modifier, last-update timestamp. -/
structure Workspace where
  id : String
  signupToken : String
  settings : List (String × GoValue)
  modifiedBy : String
  updateAt : Int

/-- In-memory record `model.UserWorkspace`: channel id, display title, and
the live count of non-template boards. -/
structure UserWorkspace where
  id : String
  title : String
  boardCount : Int
deriving DecidableEq

/-- A scanned SQL column value, as far as this file's row shapes need. -/
inductive SqlValue where
  | s (v : String)
  | i (v : Int)
deriving DecidableEq

/-- Errors surfaced by the store, mirroring the Go error values: the
`sql.ErrNoRows` condition, JSON encode/decode failures, a row-scan shape
mismatch, the error `query.Query()` returns when the built SQL is rejected
by the engine (a syntax error), and the `errUnsupportedDatabaseError`
sentinel (wrapped with the name of the failing operation). -/
inductive StoreErr where
  | noRows
  | jsonMarshalError
  | jsonUnmarshalError
  | scanError
  | queryError
  | unsupportedDatabase (op : String)
deriving DecidableEq

/-- Dialect discriminator for MySQL, as in `store.go`. -/
def mysqlDBType : String := "mysql"

/-- Dialect discriminator for PostgreSQL, as in `store.go`. -/
def postgresDBType : String := "postgres"

/-! ## Upsert operations -/

/-- Relational semantics of an insert with an on-conflict suffix keyed on
`id`: update every row whose `id` collides when one exists, append the new
row otherwise. -/
def upsertRow (insRow : WorkspaceRow) (updateFn : WorkspaceRow → WorkspaceRow)
    (tbl : List WorkspaceRow) : List WorkspaceRow :=
  if tbl.any (fun r => r.id == insRow.id) then
    tbl.map (fun r => if r.id == insRow.id then updateFn r else r)
  else tbl ++ [insRow]

/-- `UpsertWorkspaceSignupToken`: inserts `(id, signup_token, modified_by,
update_at)`; on duplicate key the MySQL suffix rewrites token, modifier and
timestamp from the bound values, the PostgreSQL suffix rewrites them from
the excluded (to-be-inserted) row.  A freshly inserted row has no settings
column value. -/
def UpsertWorkspaceSignupToken (dbType : String) (st : DBState) (workspace : Workspace)
    (now : Int) : Except StoreErr Unit × DBState :=
  let insRow : WorkspaceRow :=
    ⟨workspace.id, workspace.signupToken, none, workspace.modifiedBy, now⟩
  let updateFn : WorkspaceRow → WorkspaceRow :=
    if dbType = mysqlDBType then
      fun r => { r with
        signup_token := workspace.signupToken
        modified_by := workspace.modifiedBy
        update_at := now }
    else
      fun r => { r with
        signup_token := insRow.signup_token
        modified_by := insRow.modified_by
        update_at := insRow.update_at }
  (Except.ok (), { st with workspaces := upsertRow insRow updateFn st.workspaces })

/-- `UpsertWorkspaceSettings`: serializes the settings map (failing before
any statement is issued when `json.Marshal` fails), generates a fresh
signup token used only in the insert column list, and on duplicate key
rewrites settings, modifier and timestamp — from the bound values under
MySQL, from the excluded row under PostgreSQL; neither update clause
mentions `signup_token`. -/
def UpsertWorkspaceSettings (dbType : String) (st : DBState) (workspace : Workspace)
    (signupToken : String) (now : Int) : Except StoreErr Unit × DBState :=
  match renderGoValue (GoValue.jobj workspace.settings) with
  | none => (Except.error StoreErr.jsonMarshalError, st)
  | some settingsJSON =>
      let insRow : WorkspaceRow :=
        ⟨workspace.id, signupToken, some settingsJSON, workspace.modifiedBy, now⟩
      let updateFn : WorkspaceRow → WorkspaceRow :=
        if dbType = mysqlDBType then
          fun r => { r with
            settings := some settingsJSON
            modified_by := workspace.modifiedBy
            update_at := now }
        else
          fun r => { r with
            settings := insRow.settings
            modified_by := insRow.modified_by
            update_at := insRow.update_at }
      (Except.ok (), { st with workspaces := upsertRow insRow updateFn st.workspaces })

/-! ## Read operations -/

/-- `GetWorkspace`: selects the five columns of the first row matching the
identifier (`QueryRow` semantics), with `COALESCE(settings, '\x7b\x7d')`
substituting the empty object for a null settings column, then decodes the
JSON settings document.  No row is the `sql.ErrNoRows` condition; a decode
failure is returned as an error.  An error result carries no record. -/
def GetWorkspace (st : DBState) (id : String) : Except StoreErr Workspace :=
  match st.workspaces.find? (fun r => r.id == id) with
  | none => Except.error StoreErr.noRows
  | some row =>
      let settingsJSON := row.settings.getD "\x7b\x7d"
      match jsonUnmarshalObj settingsJSON with
      | none => Except.error StoreErr.jsonUnmarshalError
      | some entries =>
          Except.ok ⟨row.id, row.signup_token, entries, row.modified_by, row.update_at⟩

/-- `HasWorkspaceAccess`: the access-control stub; ignores the store state
and both arguments and returns `true` with no error. -/
def HasWorkspaceAccess (st : DBState) (userID : String) (workspaceID : String) :
    Bool × Option StoreErr :=
  (true, none)

/-! ## GetUserWorkspaces: dialect filters, join, group-by, row scan -/

/-- A dialect's non-template filter fragment as the query builder receives
it: either a valid predicate on the `fields` blob, or a fragment that is
not valid SQL for its engine, in which case executing the built query
fails with a syntax error instead of producing rows. -/
inductive NonTemplateFilter where
  | invalidSQL (sqlText : String)
  | valid (pred : String → Bool)

/-- MySQL branch of `nonTemplateFilter` (workspaces.go:163).  The Go string
contributes the SQL fragment `focalboard_blocks.fields LIKE
%"isTemplate":false%`: the LIKE pattern carries no surrounding quotes, so
the fragment is not valid MySQL (`%` cannot begin an expression and the
bare pattern text is not a term) and the built query is rejected by the
engine.  The model records the fragment verbatim as invalid SQL; no
substring semantics is ever reached on this dialect. -/
def mysqlNonTemplateFilter : NonTemplateFilter :=
  NonTemplateFilter.invalidSQL "focalboard_blocks.fields LIKE %\"isTemplate\":false%"

/-- PostgreSQL `->>`: extracts an object key from a JSON document as text
(`none` is SQL NULL: missing key, JSON null, or no JSON object). -/
def jsonExtractText (s : String) (key : String) : Option String :=
  match jsonParse s with
  | some (GoValue.jobj entries) =>
      match entries.lookup key with
      | some GoValue.jnull => none
      | some (GoValue.jbool b) => some (cond b "true" "false")
      | some (GoValue.jnum n) => some (toString n)
      | some (GoValue.jstr str) => some str
      | some v => renderGoValue v
      | none => none
  | _ => none

/-- PostgreSQL branch of `nonTemplateFilter`:
`focalboard_blocks.fields ->> 'isTemplate' = 'false'`, a structured
JSON-path equality comparison (SQL NULL compares unequal). -/
def postgresNonTemplateFilter (fields : String) : Bool :=
  jsonExtractText fields "isTemplate" == some "false"

/-- The `switch s.dbType` of `GetUserWorkspaces`: the non-template filter
fragment for the two recognized dialects, `none` for every other
discriminator. -/
def dialectNonTemplateFilter (dbType : String) : Option NonTemplateFilter :=
  if dbType = mysqlDBType then some mysqlNonTemplateFilter
  else if dbType = postgresDBType then
    some (NonTemplateFilter.valid postgresNonTemplateFilter)
  else none

/-- The left-join condition on `focalboard_blocks`: same workspace as the
membership row's channel, type `'board'`, and the dialect's non-template
filter. -/
def boardBlockMatches (ntf : String → Bool) (channelId : String) (b : BlockRow) : Bool :=
  b.workspace_id == channelId && b.type == "board" && ntf b.fields

/-- Left-join semantics: the matching block rows, or a single null row when
none matches. -/
def leftJoinedBlocks (ntf : String → Bool) (blocks : List BlockRow)
    (cm : ChannelMemberRow) : List (Option BlockRow) :=
  let matching := blocks.filter (boardBlockMatches ntf cm.channelId)
  if matching.isEmpty then [none] else matching.map some

/-- One row of the joined relation
`ChannelMembers LEFT JOIN focalboard_blocks JOIN Channels`. -/
structure JoinedTuple where
  cm : ChannelMemberRow
  block : Option BlockRow
  ch : ChannelRow

/-- The joined relation after the `WHERE ChannelMembers.UserId = ?`
restriction. -/
def userWorkspaceTuples (st : DBState) (userID : String) (ntf : String → Bool) :
    List JoinedTuple :=
  (st.channelMembers.flatMap (fun cm =>
    (leftJoinedBlocks ntf st.blocks cm).flatMap (fun ob =>
      (st.channels.filter (fun ch => cm.channelId == ch.id)).map
        (fun ch => ⟨cm, ob, ch⟩)))).filter
    (fun t => t.cm.userId == userID)

/-- The `GROUP BY Channels.Id, Channels.DisplayName` key of a joined row. -/
def tupleKey (t : JoinedTuple) : String × String :=
  (t.ch.id, t.ch.displayName)

/-- Group keys in order of first appearance, without duplicates. -/
def eraseDupKeys : List (String × String) → List (String × String)
  | [] => []
  | k :: ks => k :: (eraseDupKeys ks).filter (fun k2 => decide (k2 ≠ k))

/-- `COUNT(focalboard_blocks.id)` within one group: joined rows of the
group whose block side is non-null. -/
def groupCount (ts : List JoinedTuple) (k : String × String) : Nat :=
  (ts.filter (fun t => decide (tupleKey t = k) && t.block.isSome)).length

/-- The grouped result rows, one per key, each carrying
`(Channels.ID, Channels.DisplayName, COUNT(focalboard_blocks.id))`. -/
def groupRows (ts : List JoinedTuple) : List (List SqlValue) :=
  (eraseDupKeys (ts.map tupleKey)).map
    (fun k => [SqlValue.s k.1, SqlValue.s k.2, SqlValue.i (Int.ofNat (groupCount ts k))])

/-- Scan of one result row: exactly three columns in the fixed order
identifier, title, count. -/
def scanUserWorkspace : List SqlValue → Option UserWorkspace
  | [SqlValue.s id, SqlValue.s title, SqlValue.i n] => some ⟨id, title, n⟩
  | _ => none

/-- `userWorkspacesFromRows`: scans every row, aborting with the scan error
and discarding all partial results as soon as one row fails to decode. -/
def userWorkspacesFromRows : List (List SqlValue) → Except StoreErr (List UserWorkspace)
  | [] => Except.ok []
  | r :: rest =>
      match scanUserWorkspace r with
      | none => Except.error StoreErr.scanError
      | some uw =>
          match userWorkspacesFromRows rest with
          | Except.error e => Except.error e
          | Except.ok uws => Except.ok (uw :: uws)

/-- `GetUserWorkspaces`: fails fast with the unsupported-database error for
any dialect other than the two recognized ones.  For a recognized dialect
the query is built and executed: when the dialect's filter fragment is
invalid SQL (the MySQL branch), `query.Query()` returns the engine's
syntax error, which is logged and returned with no rows; otherwise the
join/group-by query runs and its rows are scanned. -/
def GetUserWorkspaces (dbType : String) (st : DBState) (userID : String) :
    Except StoreErr (List UserWorkspace) :=
  match dialectNonTemplateFilter dbType with
  | none => Except.error (StoreErr.unsupportedDatabase "GetUserWorkspaces")
  | some (NonTemplateFilter.invalidSQL _) => Except.error StoreErr.queryError
  | some (NonTemplateFilter.valid ntf) =>
      userWorkspacesFromRows (groupRows (userWorkspaceTuples st userID ntf))

/-! ## Claim C9: the access-control stub -/

/-- C9: for every pair of inputs (userID, workspaceID), `HasWorkspaceAccess`
returns `true` with no error, independently of both arguments and of the
store state. -/
theorem HasWorkspaceAccess_always_true (st st' : DBState)
    (userID workspaceID userID' workspaceID' : String) :
    HasWorkspaceAccess st userID workspaceID = (true, none) ∧
      HasWorkspaceAccess st userID workspaceID =
        HasWorkspaceAccess st' userID' workspaceID' :=
  ⟨rfl, rfl⟩

/-- Witness for C9: a concrete invocation of the stub. -/
theorem HasWorkspaceAccess_always_true_witness :
    HasWorkspaceAccess ⟨[], [], [], []⟩ "alice" "w1" = (true, none) :=
  (HasWorkspaceAccess_always_true ⟨[], [], [], []⟩ ⟨[], [], [], []⟩
    "alice" "w1" "bob" "w2").1

/-! ## Claim C4: closed dialect support in GetUserWorkspaces -/

/-- C4: for every dialect discriminator other than the two recognized ones,
`GetUserWorkspaces` fails with the unsupported-database error wrapped with
the operation name, and the result does not depend on the database state
(no query is issued, no state is touched). -/
theorem GetUserWorkspaces_unsupported_dialect (dbType : String) (st st' : DBState)
    (userID : String) (h1 : dbType ≠ mysqlDBType) (h2 : dbType ≠ postgresDBType) :
    GetUserWorkspaces dbType st userID =
        Except.error (StoreErr.unsupportedDatabase "GetUserWorkspaces") ∧
      GetUserWorkspaces dbType st userID = GetUserWorkspaces dbType st' userID := by
  unfold GetUserWorkspaces dialectNonTemplateFilter
  rw [if_neg h1, if_neg h2]
  exact ⟨rfl, rfl⟩

/-- Witness for C4 at the dialect discriminator "sqlite3". -/
theorem GetUserWorkspaces_unsupported_dialect_witness :
    GetUserWorkspaces "sqlite3" ⟨[], [], [], []⟩ "user1" =
      Except.error (StoreErr.unsupportedDatabase "GetUserWorkspaces") :=
  (GetUserWorkspaces_unsupported_dialect "sqlite3" ⟨[], [], [], []⟩ ⟨[], [], [], []⟩
    "user1" (by decide) (by decide)).1

/-! ## Claim C7: serialization failure aborts UpsertWorkspaceSettings -/

/-- C7: when the settings value cannot be JSON-encoded,
`UpsertWorkspaceSettings` returns the serialization error and the database
state is returned unchanged — no statement is issued. -/
theorem UpsertWorkspaceSettings_marshal_error (dbType : String) (st : DBState)
    (workspace : Workspace) (signupToken : String) (now : Int)
    (h : renderGoValue (GoValue.jobj workspace.settings) = none) :
    UpsertWorkspaceSettings dbType st workspace signupToken now =
      (Except.error StoreErr.jsonMarshalError, st) := by
  unfold UpsertWorkspaceSettings
  rw [h]

/-- Witness for C7: a settings map holding a channel value, which
`json.Marshal` cannot encode. -/
theorem UpsertWorkspaceSettings_marshal_error_witness :
    UpsertWorkspaceSettings "mysql" ⟨[], [], [], []⟩
        ⟨"w1", "", [("ch", GoValue.unencodable "chan")], "me", 0⟩ "tok" 7 =
      (Except.error StoreErr.jsonMarshalError, ⟨[], [], [], []⟩) :=
  UpsertWorkspaceSettings_marshal_error "mysql" ⟨[], [], [], []⟩
    ⟨"w1", "", [("ch", GoValue.unencodable "chan")], "me", 0⟩ "tok" 7
    (by simp [renderGoValue, renderGoEntries])

/-! ## Claim C5: null settings decode to the empty object -/

/-- C5: when the first row matching the identifier has a null settings
column, `GetWorkspace` succeeds and returns a workspace whose settings are
the empty object — the stored null is substituted with the empty-object
document before decoding. -/
theorem GetWorkspace_null_settings (st : DBState) (id : String) (row : WorkspaceRow)
    (hfind : st.workspaces.find? (fun r => r.id == id) = some row)
    (hnull : row.settings = none) :
    GetWorkspace st id =
      Except.ok ⟨row.id, row.signup_token, [], row.modified_by, row.update_at⟩ := by
  obtain ⟨rid, rtok, rset, rmod, rup⟩ := row
  dsimp only at hnull ⊢
  subst hnull
  unfold GetWorkspace
  rw [hfind]
  rfl

/-- Witness for C5: a store holding one workspace row whose settings were
never written. -/
theorem GetWorkspace_null_settings_witness :
    GetWorkspace ⟨[⟨"w1", "tok", none, "me", 5⟩], [], [], []⟩ "w1" =
      Except.ok ⟨"w1", "tok", [], "me", 5⟩ :=
  GetWorkspace_null_settings ⟨[⟨"w1", "tok", none, "me", 5⟩], [], [], []⟩ "w1"
    ⟨"w1", "tok", none, "me", 5⟩ rfl rfl

/-! ## Claim C6: missing row surfaces the no-rows condition -/

/-- C6: when no workspace row matches the identifier, `GetWorkspace` fails
with the store's standard no-rows condition; the error result carries no
workspace record (the embedding's `Except.error` models the nil record
pointer returned on every error path). -/
theorem GetWorkspace_not_found (st : DBState) (id : String)
    (h : ∀ r ∈ st.workspaces, r.id ≠ id) :
    GetWorkspace st id = Except.error StoreErr.noRows := by
  unfold GetWorkspace
  have hfind : st.workspaces.find? (fun r => r.id == id) = none := by
    rw [List.find?_eq_none]
    intro r hr
    simp [h r hr]
  rw [hfind]

/-- Witness for C6: a lookup of an absent identifier. -/
theorem GetWorkspace_not_found_witness :
    GetWorkspace ⟨[⟨"w1", "tok", none, "me", 5⟩], [], [], []⟩ "w2" =
      Except.error StoreErr.noRows :=
  GetWorkspace_not_found ⟨[⟨"w1", "tok", none, "me", 5⟩], [], [], []⟩ "w2"
    (by decide)

/-! ## Upsert helper lemmas -/

/-- Helper: when the update function changes neither id nor settings,
`upsertRow` leaves the (id, settings) projection of every pre-existing row
in place, and every row of the result either keeps a pre-existing
(id, settings) pair or carries the inserted row's settings. -/
theorem upsertRow_frame (insRow : WorkspaceRow) (updateFn : WorkspaceRow → WorkspaceRow)
    (tbl : List WorkspaceRow)
    (hid : ∀ r, (updateFn r).id = r.id)
    (hset : ∀ r, (updateFn r).settings = r.settings) :
    ((upsertRow insRow updateFn tbl).map (fun r => (r.id, r.settings))).take tbl.length =
        tbl.map (fun r => (r.id, r.settings)) ∧
      ∀ r ∈ upsertRow insRow updateFn tbl,
        (r.id, r.settings) ∈ tbl.map (fun r => (r.id, r.settings)) ∨
          r.settings = insRow.settings := by
  unfold upsertRow
  by_cases h : tbl.any (fun r => r.id == insRow.id)
  · rw [if_pos h]
    have hfun : ∀ r : WorkspaceRow,
        (((if r.id == insRow.id then updateFn r else r).id,
          (if r.id == insRow.id then updateFn r else r).settings) : String × Option String)
          = (r.id, r.settings) := by
      intro r
      by_cases hr : r.id = insRow.id <;> simp [hr, hid, hset]
    constructor
    · rw [List.map_map]
      have : ((fun r : WorkspaceRow => (r.id, r.settings)) ∘
          fun r => if r.id == insRow.id then updateFn r else r) =
          fun r : WorkspaceRow => (r.id, r.settings) := by
        funext r
        exact hfun r
      rw [this, ← List.length_map tbl (fun r => (r.id, r.settings)), List.take_length]
    · intro r hr
      rcases List.mem_map.mp hr with ⟨r0, hr0, hr0eq⟩
      left
      rw [← hr0eq]
      rw [show ((if r0.id == insRow.id then updateFn r0 else r0).id,
          (if r0.id == insRow.id then updateFn r0 else r0).settings) = (r0.id, r0.settings)
          from hfun r0]
      exact List.mem_map_of_mem _ hr0
  · rw [if_neg h]
    constructor
    · rw [List.map_append]
      exact List.take_left' (List.length_map _ _)
    · intro r hr
      rcases List.mem_append.mp hr with hr | hr
      · exact Or.inl (List.mem_map_of_mem _ hr)
      · right
        rw [List.mem_singleton.mp hr]

/-- Helper: when the table held at most one row with the inserted row's id
and the update function rewrites exactly token, modifier and timestamp,
the rows matching that id after `upsertRow` are a single row carrying the
inserted row's token, modifier and timestamp. -/
theorem upsertRow_filter_singleton (insRow : WorkspaceRow)
    (updateFn : WorkspaceRow → WorkspaceRow) (tbl : List WorkspaceRow)
    (hupd : ∀ r, updateFn r =
      { r with
        signup_token := insRow.signup_token
        modified_by := insRow.modified_by
        update_at := insRow.update_at })
    (hpk : tbl.countP (fun r => r.id == insRow.id) ≤ 1) :
    ∃ s : Option String,
      (upsertRow insRow updateFn tbl).filter (fun r => r.id == insRow.id) =
        [⟨insRow.id, insRow.signup_token, s, insRow.modified_by, insRow.update_at⟩] := by
  unfold upsertRow
  by_cases h : tbl.any (fun r => r.id == insRow.id)
  · rw [if_pos h]
    have hone : tbl.countP (fun r => r.id == insRow.id) = 1 :=
      Nat.le_antisymm hpk (List.countP_pos_iff.mpr (by simpa using List.any_eq_true.mp h))
    have hlen : (tbl.filter (fun r => r.id == insRow.id)).length = 1 := by
      rw [← List.countP_eq_length_filter]
      exact hone
    rcases List.length_eq_one.mp hlen with ⟨r0, hr0⟩
    have hr0mem : r0 ∈ tbl.filter (fun r => r.id == insRow.id) := by
      rw [hr0]; exact List.mem_singleton_self r0
    have hr0id : r0.id = insRow.id := by
      have := (List.mem_filter.mp hr0mem).2
      simpa using this
    rw [List.filter_map]
    have hcong : tbl.filter
        ((fun r : WorkspaceRow => r.id == insRow.id) ∘
          fun r => if r.id == insRow.id then updateFn r else r) =
        tbl.filter (fun r => r.id == insRow.id) := by
      apply List.filter_congr
      intro r _
      by_cases hr : r.id = insRow.id <;> simp [hr, hupd]
    rw [hcong, hr0]
    refine ⟨r0.settings, ?_⟩
    rw [List.map_singleton]
    have : (if r0.id == insRow.id then updateFn r0 else r0) = updateFn r0 := by
      simp [hr0id]
    rw [this, hupd r0]
    rw [show ({ r0 with
        signup_token := insRow.signup_token
        modified_by := insRow.modified_by
        update_at := insRow.update_at } : WorkspaceRow) =
      ⟨r0.id, insRow.signup_token, r0.settings, insRow.modified_by, insRow.update_at⟩ from rfl]
    rw [hr0id]
  · rw [if_neg h, List.filter_append]
    have hnil : tbl.filter (fun r => r.id == insRow.id) = [] := by
      rw [List.filter_eq_nil_iff]
      intro r hr
      have := List.any_eq_true.not.mp h
      push_neg at this
      simpa using this r hr
    rw [hnil]
    refine ⟨insRow.settings, ?_⟩
    simp

/-- Helper: `upsertRow` preserves the at-most-one-row-per-id invariant for
the inserted row's id when the update function preserves ids. -/
theorem upsertRow_countP_le_one (insRow : WorkspaceRow)
    (updateFn : WorkspaceRow → WorkspaceRow) (tbl : List WorkspaceRow)
    (hid : ∀ r, (updateFn r).id = r.id)
    (hpk : tbl.countP (fun r => r.id == insRow.id) ≤ 1) :
    (upsertRow insRow updateFn tbl).countP (fun r => r.id == insRow.id) ≤ 1 := by
  unfold upsertRow
  by_cases h : tbl.any (fun r => r.id == insRow.id)
  · rw [if_pos h, List.countP_map]
    have : tbl.countP
        ((fun r : WorkspaceRow => r.id == insRow.id) ∘
          fun r => if r.id == insRow.id then updateFn r else r) =
        tbl.countP (fun r => r.id == insRow.id) := by
      apply List.countP_congr
      intro r _
      by_cases hr : r.id = insRow.id <;> simp [hr, hid]
    rw [this]
    exact hpk
  · rw [if_neg h, List.countP_append]
    have hz : tbl.countP (fun r => r.id == insRow.id) = 0 := by
      rw [List.countP_eq_zero]
      intro r hr
      have := List.any_eq_true.not.mp h
      push_neg at this
      simpa using this r hr
    rw [hz]
    simp

/-! ## Claim C10: UpsertWorkspaceSignupToken never touches settings -/

/-- C10: `UpsertWorkspaceSignupToken` references the settings column in
neither its insert column list nor its conflict-update clause: every
pre-existing row keeps its stored settings document (positionally), and
any row it creates has a null settings column, under every dialect. -/
theorem UpsertWorkspaceSignupToken_frame_settings (dbType : String) (st : DBState)
    (workspace : Workspace) (now : Int) :
    (((UpsertWorkspaceSignupToken dbType st workspace now).2.workspaces.map
          (fun r => (r.id, r.settings))).take st.workspaces.length =
        st.workspaces.map (fun r => (r.id, r.settings))) ∧
      ∀ r ∈ (UpsertWorkspaceSignupToken dbType st workspace now).2.workspaces,
        (r.id, r.settings) ∈ st.workspaces.map (fun r => (r.id, r.settings)) ∨
          r.settings = none := by
  unfold UpsertWorkspaceSignupToken
  dsimp only
  exact upsertRow_frame _ _ _
    (fun r => by by_cases hd : dbType = mysqlDBType <;> simp [hd])
    (fun r => by by_cases hd : dbType = mysqlDBType <;> simp [hd])

/-- Witness for C10: a token upsert over an existing row leaves its stored
settings document in place. -/
theorem UpsertWorkspaceSignupToken_frame_settings_witness :
    (((UpsertWorkspaceSignupToken "postgres"
          ⟨[⟨"w1", "t0", some "\x7b\"a\":1\x7d", "me", 1⟩], [], [], []⟩
          ⟨"w1", "t9", [], "you", 0⟩ 9).2.workspaces.map
        (fun r => (r.id, r.settings))).take 1) =
      [("w1", some "\x7b\"a\":1\x7d")] :=
  (UpsertWorkspaceSignupToken_frame_settings "postgres"
    ⟨[⟨"w1", "t0", some "\x7b\"a\":1\x7d", "me", 1⟩], [], [], []⟩
    ⟨"w1", "t9", [], "you", 0⟩ 9).1

/-! ## Claim C2: the conflict branch of UpsertWorkspaceSettings -/

/-- C2: when a row for the workspace already exists, the conflict-update
branch of `UpsertWorkspaceSettings` is taken: the result does not depend on
the freshly generated token (the update clause never references it), the
call succeeds, and the table is rewritten so that the colliding rows get
the new settings document, modifier and timestamp while keeping their
stored signup token — under both recognized dialects. -/
theorem UpsertWorkspaceSettings_conflict_keeps_token (dbType : String) (st : DBState)
    (workspace : Workspace) (tok1 tok2 : String) (now : Int) (settingsJSON : String)
    (hjson : renderGoValue (GoValue.jobj workspace.settings) = some settingsJSON)
    (hexists : st.workspaces.any (fun r => r.id == workspace.id) = true)
    (hd : dbType = mysqlDBType ∨ dbType = postgresDBType) :
    UpsertWorkspaceSettings dbType st workspace tok1 now =
        UpsertWorkspaceSettings dbType st workspace tok2 now ∧
      (UpsertWorkspaceSettings dbType st workspace tok1 now).1 = Except.ok () ∧
      (UpsertWorkspaceSettings dbType st workspace tok1 now).2.workspaces =
        st.workspaces.map (fun r =>
          if r.id == workspace.id then
            { r with
              settings := some settingsJSON
              modified_by := workspace.modifiedBy
              update_at := now }
          else r) := by
  have key : ∀ tok : String,
      UpsertWorkspaceSettings dbType st workspace tok now =
        (Except.ok (), { st with workspaces := st.workspaces.map (fun r =>
          if r.id == workspace.id then
            { r with
              settings := some settingsJSON
              modified_by := workspace.modifiedBy
              update_at := now }
          else r) }) := by
    intro tok
    unfold UpsertWorkspaceSettings
    rw [hjson]
    dsimp only
    unfold upsertRow
    rw [if_pos hexists]
    rcases hd with hd | hd <;> rw [hd] <;> simp [mysqlDBType, postgresDBType]
  exact ⟨(key tok1).trans (key tok2).symm, by rw [key tok1], by rw [key tok1]⟩

/-- Witness for C2: a store already holding a row for the workspace; the
two generated tokens "g1" and "g2" produce the same result, and the stored
token "keepme" survives while settings, modifier and timestamp change. -/
theorem UpsertWorkspaceSettings_conflict_keeps_token_witness :
    UpsertWorkspaceSettings "postgres"
        ⟨[⟨"w1", "keepme", none, "old", 1⟩], [], [], []⟩
        ⟨"w1", "", [], "new", 0⟩ "g1" 9 =
      UpsertWorkspaceSettings "postgres"
        ⟨[⟨"w1", "keepme", none, "old", 1⟩], [], [], []⟩
        ⟨"w1", "", [], "new", 0⟩ "g2" 9 ∧
    (UpsertWorkspaceSettings "postgres"
        ⟨[⟨"w1", "keepme", none, "old", 1⟩], [], [], []⟩
        ⟨"w1", "", [], "new", 0⟩ "g1" 9).2.workspaces =
      [⟨"w1", "keepme", some "\x7b\x7d", "new", 9⟩] := by
  have h := UpsertWorkspaceSettings_conflict_keeps_token "postgres"
    ⟨[⟨"w1", "keepme", none, "old", 1⟩], [], [], []⟩
    ⟨"w1", "", [], "new", 0⟩ "g1" "g2" 9 "\x7b\x7d"
    (by simp [renderGoValue, renderGoEntries]) (by rfl) (Or.inr rfl)
  exact ⟨h.1, by rw [h.2.2]; rfl⟩

/-! ## Claim C3: last-write-wins for UpsertWorkspaceSignupToken -/

/-- Helper: the update function of `UpsertWorkspaceSignupToken` rewrites
exactly token, modifier and timestamp under both branches of the dialect
conditional. -/
theorem signupTokenUpdateFn_eq (dbType : String) (workspace : Workspace) (now : Int)
    (r : WorkspaceRow) :
    (if dbType = mysqlDBType then
      fun r : WorkspaceRow => { r with
        signup_token := workspace.signupToken
        modified_by := workspace.modifiedBy
        update_at := now }
    else
      fun r : WorkspaceRow => { r with
        signup_token := (⟨workspace.id, workspace.signupToken, none,
          workspace.modifiedBy, now⟩ : WorkspaceRow).signup_token
        modified_by := (⟨workspace.id, workspace.signupToken, none,
          workspace.modifiedBy, now⟩ : WorkspaceRow).modified_by
        update_at := (⟨workspace.id, workspace.signupToken, none,
          workspace.modifiedBy, now⟩ : WorkspaceRow).update_at }) r =
    { r with
      signup_token := workspace.signupToken
      modified_by := workspace.modifiedBy
      update_at := now } := by
  by_cases hd : dbType = mysqlDBType <;> simp [hd]

/-- C3: two `UpsertWorkspaceSignupToken` calls for the same identifier
(with different tokens) leave exactly one row for that identifier, holding
the token, modifier and timestamp of the second call, for every dialect
and in particular under both recognized ones. -/
theorem UpsertWorkspaceSignupToken_last_write_wins (dbType : String) (st : DBState)
    (w1 w2 : Workspace) (now1 now2 : Int)
    (hid : w1.id = w2.id) (htok : w1.signupToken ≠ w2.signupToken)
    (hpk : st.workspaces.countP (fun r => r.id == w2.id) ≤ 1) :
    ∃ s : Option String,
      ((UpsertWorkspaceSignupToken dbType
            (UpsertWorkspaceSignupToken dbType st w1 now1).2 w2 now2).2.workspaces.filter
          (fun r => r.id == w2.id)) =
        [⟨w2.id, w2.signupToken, s, w2.modifiedBy, now2⟩] := by
  unfold UpsertWorkspaceSignupToken
  dsimp only
  have hpk1 : ((upsertRow ⟨w1.id, w1.signupToken, none, w1.modifiedBy, now1⟩
      (if dbType = mysqlDBType then
        fun r : WorkspaceRow => { r with
          signup_token := w1.signupToken
          modified_by := w1.modifiedBy
          update_at := now1 }
      else
        fun r : WorkspaceRow => { r with
          signup_token := (⟨w1.id, w1.signupToken, none, w1.modifiedBy, now1⟩ :
            WorkspaceRow).signup_token
          modified_by := (⟨w1.id, w1.signupToken, none, w1.modifiedBy, now1⟩ :
            WorkspaceRow).modified_by
          update_at := (⟨w1.id, w1.signupToken, none, w1.modifiedBy, now1⟩ :
            WorkspaceRow).update_at })
      st.workspaces).countP (fun r => r.id == w2.id)) ≤ 1 := by
    rw [show (fun r : WorkspaceRow => r.id == w2.id) =
        (fun r : WorkspaceRow =>
          r.id == (⟨w1.id, w1.signupToken, none, w1.modifiedBy, now1⟩ :
            WorkspaceRow).id) from by
      funext r
      rw [show (⟨w1.id, w1.signupToken, none, w1.modifiedBy, now1⟩ :
        WorkspaceRow).id = w2.id from hid]]
    apply upsertRow_countP_le_one
    · intro r
      rw [signupTokenUpdateFn_eq dbType w1 now1 r]
    · rw [show (⟨w1.id, w1.signupToken, none, w1.modifiedBy, now1⟩ :
        WorkspaceRow).id = w2.id from hid]
      exact hpk
  have h2 := upsertRow_filter_singleton
    ⟨w2.id, w2.signupToken, none, w2.modifiedBy, now2⟩
    (if dbType = mysqlDBType then
      fun r : WorkspaceRow => { r with
        signup_token := w2.signupToken
        modified_by := w2.modifiedBy
        update_at := now2 }
    else
      fun r : WorkspaceRow => { r with
        signup_token := (⟨w2.id, w2.signupToken, none, w2.modifiedBy, now2⟩ :
          WorkspaceRow).signup_token
        modified_by := (⟨w2.id, w2.signupToken, none, w2.modifiedBy, now2⟩ :
          WorkspaceRow).modified_by
        update_at := (⟨w2.id, w2.signupToken, none, w2.modifiedBy, now2⟩ :
          WorkspaceRow).update_at })
    _ (fun r => signupTokenUpdateFn_eq dbType w2 now2 r) hpk1
  exact h2

/-- Witness for C3: two upserts of workspace "w1" with tokens "t1" then
"t2" on an initially empty store leave the single row with the second
call's token, modifier and timestamp. -/
theorem UpsertWorkspaceSignupToken_last_write_wins_witness :
    ∃ s : Option String,
      ((UpsertWorkspaceSignupToken "mysql"
            (UpsertWorkspaceSignupToken "mysql" ⟨[], [], [], []⟩
              ⟨"w1", "t1", [], "alice", 0⟩ 10).2
            ⟨"w1", "t2", [], "bob", 0⟩ 20).2.workspaces.filter
          (fun r => r.id == "w1")) =
        [⟨"w1", "t2", s, "bob", 20⟩] :=
  UpsertWorkspaceSignupToken_last_write_wins "mysql" ⟨[], [], [], []⟩
    ⟨"w1", "t1", [], "alice", 0⟩ ⟨"w1", "t2", [], "bob", 0⟩ 10 20
    rfl (by decide) (by decide)

/-! ## Claim C8: all-or-nothing row decoding -/

/-- Helper: `userWorkspacesFromRows` is the all-or-nothing traversal of the
per-row scan: it succeeds with the scanned records exactly when every row
scans, and aborts with the scan error otherwise. -/
theorem userWorkspacesFromRows_eq_mapM (rows : List (List SqlValue)) :
    userWorkspacesFromRows rows =
      match rows.mapM scanUserWorkspace with
      | some l => Except.ok l
      | none => Except.error StoreErr.scanError := by
  induction rows with
  | nil => rfl
  | cons r rest ih =>
      unfold userWorkspacesFromRows
      rw [List.mapM_cons]
      cases h : scanUserWorkspace r with
      | none => simp [h]
      | some uw =>
          rw [ih]
          cases h2 : rest.mapM scanUserWorkspace <;> simp [h, h2]

/-- C8: each result row is decoded as exactly three columns in the fixed
order (identifier, title, count) — the shape accepted by
`scanUserWorkspace` — and when the rows all decode the call returns them
all in order, while a single failing row makes the whole call fail with
the scan error, discarding every partial result. -/
theorem userWorkspacesFromRows_all_or_nothing (rows : List (List SqlValue)) :
    (∀ l, rows.mapM scanUserWorkspace = some l →
        userWorkspacesFromRows rows = Except.ok l) ∧
      (rows.mapM scanUserWorkspace = none →
        userWorkspacesFromRows rows = Except.error StoreErr.scanError) := by
  constructor
  · intro l h
    rw [userWorkspacesFromRows_eq_mapM, h]
  · intro h
    rw [userWorkspacesFromRows_eq_mapM, h]

/-- Witness for C8: a good prefix followed by a malformed row is wholly
discarded; the same good rows alone all come back in order. -/
theorem userWorkspacesFromRows_all_or_nothing_witness :
    userWorkspacesFromRows
        [[SqlValue.s "c1", SqlValue.s "T", SqlValue.i 2], [SqlValue.s "bad"]] =
      Except.error StoreErr.scanError ∧
    userWorkspacesFromRows
        [[SqlValue.s "c1", SqlValue.s "T", SqlValue.i 2],
         [SqlValue.s "c2", SqlValue.s "U", SqlValue.i 0]] =
      Except.ok [⟨"c1", "T", 2⟩, ⟨"c2", "U", 0⟩] :=
  ⟨(userWorkspacesFromRows_all_or_nothing _).2 (by rfl),
   (userWorkspacesFromRows_all_or_nothing _).1 _ (by rfl)⟩

/-! ## Claim C1: per-channel board counts in GetUserWorkspaces

The join/group-by semantics below establishes the intended per-channel
board counts for any dialect whose filter fragment is valid SQL, which of
the two recognized dialects only PostgreSQL is; the claim's
both-dialects statement fails on MySQL, whose unquoted LIKE pattern makes
every `GetUserWorkspaces` query error (the claim's C1 theorem at the end
of this section evaluates that failing path). -/

/-- Helper: `countP` distributes over `flatMap` as a sum of per-element
counts. -/
theorem countP_flatMap {α β} (l : List α) (f : α → List β) (p : β → Bool) :
    (l.flatMap f).countP p = (l.map (fun a => (f a).countP p)).sum := by
  unfold List.flatMap
  rw [List.countP_flatten, List.map_map]
  rfl

/-- Helper: summing a function that is `v` exactly on the elements
satisfying `p` and `0` elsewhere counts the satisfying elements `v`
times. -/
theorem sum_map_ite_const {α} (p : α → Bool) (v : Nat) (g : α → Nat) :
    ∀ l : List α, (∀ a ∈ l, g a = if p a then v else 0) →
      (l.map g).sum = l.countP p * v
  | [], _ => by simp
  | a :: l, h => by
      rw [List.map_cons, List.sum_cons, List.countP_cons,
        sum_map_ite_const p v g l (fun x hx => h x (List.mem_cons_of_mem a hx)),
        h a (List.mem_cons_self a l)]
      by_cases hp : p a = true <;>
        simp [hp, Nat.add_mul, Nat.one_mul, Nat.add_comm]

/-- Helper: membership in the deduplicated key list is membership in the
original list. -/
theorem mem_eraseDupKeys (a : String × String) :
    ∀ l : List (String × String), a ∈ eraseDupKeys l ↔ a ∈ l
  | [] => Iff.rfl
  | k :: ks => by
      unfold eraseDupKeys
      by_cases hak : a = k
      · subst hak
        simp
      · simp only [List.mem_cons, List.mem_filter, mem_eraseDupKeys a ks]
        constructor
        · rintro (h | ⟨h, _⟩)
          · exact Or.inl h
          · exact Or.inr h
        · rintro (h | h)
          · exact Or.inl h
          · exact Or.inr ⟨h, by simpa using hak⟩

/-- Helper: the deduplicated key list has no duplicates. -/
theorem nodup_eraseDupKeys :
    ∀ l : List (String × String), (eraseDupKeys l).Nodup
  | [] => List.nodup_nil
  | k :: ks => by
      unfold eraseDupKeys
      refine List.Nodup.cons ?_ (List.Nodup.filter _ (nodup_eraseDupKeys ks))
      intro hmem
      have := (List.mem_filter.mp hmem).2
      simp at this

/-- Helper: in a duplicate-free list where `p` characterises exactly the
member `a`, filtering by `p` yields `[a]`. -/
theorem filter_eq_singleton_of_nodup {α} (p : α → Bool) :
    ∀ l : List α, l.Nodup → ∀ a ∈ l, (∀ x ∈ l, p x = true ↔ x = a) →
      l.filter p = [a]
  | [], _, a, ha, _ => absurd ha (List.not_mem_nil a)
  | x :: xs, hnd, a, ha, hp => by
      have hx_notmem : x ∉ xs := (List.nodup_cons.mp hnd).1
      have hxs_nd : xs.Nodup := (List.nodup_cons.mp hnd).2
      rcases List.mem_cons.mp ha with hax | hax
      · subst hax
        rw [List.filter_cons_of_pos ((hp a (List.mem_cons_self a xs)).mpr rfl)]
        have : xs.filter p = [] := by
          rw [List.filter_eq_nil_iff]
          intro y hy hpy
          exact hx_notmem (((hp y (List.mem_cons_of_mem a hy)).mp hpy) ▸ hy)
        rw [this]
      · have hxa : x ≠ a := fun hxa => hx_notmem (hxa ▸ hax)
        rw [List.filter_cons_of_neg]
        · exact filter_eq_singleton_of_nodup p xs hxs_nd a hax
            (fun y hy => hp y (List.mem_cons_of_mem x hy))
        · intro hpx
          exact hxa ((hp x (List.mem_cons_self x xs)).mp hpx)

/-- Helper: scanning a list of well-shaped rows produced keywise succeeds
with the corresponding records. -/
theorem mapM_scan_of_map {κ : Type} (rowOf : κ → List SqlValue)
    (uwOf : κ → UserWorkspace)
    (hscan : ∀ k, scanUserWorkspace (rowOf k) = some (uwOf k)) :
    ∀ keys : List κ,
      (keys.map rowOf).mapM scanUserWorkspace = some (keys.map uwOf)
  | [] => rfl
  | k :: ks => by
      rw [List.map_cons, List.mapM_cons, hscan k,
        mapM_scan_of_map rowOf uwOf hscan ks]
      rfl

/-- Helper: every joined tuple comes from a membership row of the queried
user joined to a channel row with the matching id. -/
theorem mem_userWorkspaceTuples {st : DBState} {userID : String}
    {ntf : String → Bool} {t : JoinedTuple}
    (ht : t ∈ userWorkspaceTuples st userID ntf) :
    t.cm ∈ st.channelMembers ∧ t.ch ∈ st.channels ∧
      t.cm.channelId = t.ch.id ∧ t.cm.userId = userID := by
  unfold userWorkspaceTuples at ht
  have h1 := List.mem_filter.mp ht
  rcases List.mem_flatMap.mp h1.1 with ⟨cm, hcm, h2⟩
  rcases List.mem_flatMap.mp h2 with ⟨ob, _, h3⟩
  rcases List.mem_map.mp h3 with ⟨ch, hch, h4⟩
  have huser := h1.2
  subst h4
  exact ⟨hcm, (List.mem_filter.mp hch).1,
    by simpa using (List.mem_filter.mp hch).2, by simpa using huser⟩

/-- Helper: the left-joined block list is never empty: a channel without
matching boards still yields its single null row. -/
theorem leftJoinedBlocks_exists_mem (ntf : String → Bool) (blocks : List BlockRow)
    (cm : ChannelMemberRow) : ∃ ob, ob ∈ leftJoinedBlocks ntf blocks cm := by
  unfold leftJoinedBlocks
  by_cases h : (blocks.filter (boardBlockMatches ntf cm.channelId)).isEmpty
  · rw [if_pos h]
    exact ⟨none, List.mem_singleton_self none⟩
  · rw [if_neg h]
    rcases (by simpa using h :
        ∃ x ∈ blocks, boardBlockMatches ntf cm.channelId x = true) with ⟨b, hb, hpb⟩
    exact ⟨some b, List.mem_map_of_mem some (List.mem_filter.mpr ⟨hb, hpb⟩)⟩

/-- Helper: a user who is a member of an existing channel contributes a
joined tuple keyed on that channel. -/
theorem exists_tuple_with_key (st : DBState) (userID C title : String)
    (ntf : String → Bool)
    (hcmmem : (⟨userID, C⟩ : ChannelMemberRow) ∈ st.channelMembers)
    (hchmem : (⟨C, title⟩ : ChannelRow) ∈ st.channels) :
    ∃ t ∈ userWorkspaceTuples st userID ntf, tupleKey t = (C, title) := by
  rcases leftJoinedBlocks_exists_mem ntf st.blocks ⟨userID, C⟩ with ⟨ob, hob⟩
  refine ⟨⟨⟨userID, C⟩, ob, ⟨C, title⟩⟩, ?_, rfl⟩
  unfold userWorkspaceTuples
  rw [List.mem_filter]
  constructor
  · rw [List.mem_flatMap]
    refine ⟨⟨userID, C⟩, hcmmem, ?_⟩
    rw [List.mem_flatMap]
    refine ⟨ob, hob, ?_⟩
    rw [List.mem_map]
    refine ⟨⟨C, title⟩, ?_, rfl⟩
    rw [List.mem_filter]
    exact ⟨hchmem, by simp⟩
  · simp

/-- Helper: the non-null rows of the left join are exactly the matching
blocks. -/
theorem countP_isSome_leftJoinedBlocks (ntf : String → Bool) (blocks : List BlockRow)
    (cm : ChannelMemberRow) :
    (leftJoinedBlocks ntf blocks cm).countP (fun ob => ob.isSome) =
      (blocks.filter (boardBlockMatches ntf cm.channelId)).length := by
  unfold leftJoinedBlocks
  by_cases h : (blocks.filter (boardBlockMatches ntf cm.channelId)).isEmpty
  · rw [if_pos h]
    rw [List.isEmpty_iff.mp h]
    rfl
  · rw [if_neg h, List.countP_map]
    simp [Function.comp]

/-- Helper: the group count of channel C's key is the number of blocks of
type board passing the dialect filter for that channel, given exactly one
membership row for (user, C) and exactly one channel row with id C. -/
theorem groupCount_eq (st : DBState) (userID C title : String) (ntf : String → Bool)
    (hmem : st.channelMembers.filter
        (fun cm => cm.userId == userID && cm.channelId == C) = [⟨userID, C⟩])
    (hch : st.channels.filter (fun ch => ch.id == C) = [⟨C, title⟩]) :
    groupCount (userWorkspaceTuples st userID ntf) (C, title) =
      (st.blocks.filter (boardBlockMatches ntf C)).length := by
  unfold groupCount userWorkspaceTuples
  rw [← List.countP_eq_length_filter, List.countP_filter, countP_flatMap]
  have hg : ∀ cm ∈ st.channelMembers,
      ((leftJoinedBlocks ntf st.blocks cm).flatMap (fun ob =>
        (st.channels.filter (fun ch => cm.channelId == ch.id)).map
          (fun ch => (⟨cm, ob, ch⟩ : JoinedTuple)))).countP
        (fun t => (decide (tupleKey t = (C, title)) && t.block.isSome) &&
          (t.cm.userId == userID)) =
      if cm.userId == userID && cm.channelId == C then
        (st.blocks.filter (boardBlockMatches ntf C)).length
      else 0 := by
    intro cm _
    rw [countP_flatMap]
    by_cases hu : cm.userId = userID
    · by_cases hc : cm.channelId = C
      · rw [if_pos (by simp [hu, hc])]
        have hchf : st.channels.filter (fun ch => cm.channelId == ch.id) =
            [⟨C, title⟩] := by
          rw [show (fun ch : ChannelRow => cm.channelId == ch.id) =
              (fun ch : ChannelRow => ch.id == C) from ?_]
          · exact hch
          · funext ch
            rw [hc]
            by_cases h2 : ch.id = C
            · subst h2
              rfl
            · rw [beq_eq_false_iff_ne.mpr (Ne.symm h2), beq_eq_false_iff_ne.mpr h2]
        have hper : ∀ ob ∈ leftJoinedBlocks ntf st.blocks cm,
            (((st.channels.filter (fun ch => cm.channelId == ch.id)).map
              (fun ch => (⟨cm, ob, ch⟩ : JoinedTuple))).countP
              (fun t => (decide (tupleKey t = (C, title)) && t.block.isSome) &&
                (t.cm.userId == userID))) =
            if (fun ob : Option BlockRow => ob.isSome) ob then 1 else 0 := by
          intro ob _
          rw [hchf, List.map_singleton, List.countP_singleton]
          simp [tupleKey, hu]
        rw [sum_map_ite_const (fun ob : Option BlockRow => ob.isSome) 1 _ _ hper,
          countP_isSome_leftJoinedBlocks, hc, Nat.mul_one]
      · rw [if_neg (by simp [hc])]
        apply List.sum_eq_zero
        intro n hn
        rcases List.mem_map.mp hn with ⟨ob, _, rfl⟩
        rw [List.countP_eq_zero]
        intro t htm
        rcases List.mem_map.mp htm with ⟨ch, hchm, rfl⟩
        have hchid : cm.channelId = ch.id := by
          simpa using (List.mem_filter.mp hchm).2
        simp only [tupleKey, Bool.and_eq_true, decide_eq_true_eq]
        rintro ⟨⟨hkey, _⟩, _⟩
        exact hc (hchid.trans (congrArg Prod.fst hkey))
    · rw [if_neg (by simp [hu])]
      apply List.sum_eq_zero
      intro n hn
      rcases List.mem_map.mp hn with ⟨ob, _, rfl⟩
      rw [List.countP_eq_zero]
      intro t htm
      rcases List.mem_map.mp htm with ⟨ch, _, rfl⟩
      simp only [Bool.and_eq_true]
      rintro ⟨_, huser⟩
      exact hu (by simpa using huser)
  rw [sum_map_ite_const (fun cm => cm.userId == userID && cm.channelId == C) _ _
    st.channelMembers hg, List.countP_eq_length_filter, hmem]
  simp

/-- Helper: the deduplicated group keys whose first component is C reduce
to exactly the key (C, title). -/
theorem keys_filter_eq (st : DBState) (userID C title : String) (ntf : String → Bool)
    (hmem : st.channelMembers.filter
        (fun cm => cm.userId == userID && cm.channelId == C) = [⟨userID, C⟩])
    (hch : st.channels.filter (fun ch => ch.id == C) = [⟨C, title⟩]) :
    (eraseDupKeys ((userWorkspaceTuples st userID ntf).map tupleKey)).filter
      (fun k => k.1 == C) = [(C, title)] := by
  have hcmmem : (⟨userID, C⟩ : ChannelMemberRow) ∈ st.channelMembers := by
    have h := List.mem_singleton_self (⟨userID, C⟩ : ChannelMemberRow)
    rw [← hmem] at h
    exact (List.mem_filter.mp h).1
  have hchmem : (⟨C, title⟩ : ChannelRow) ∈ st.channels := by
    have h := List.mem_singleton_self (⟨C, title⟩ : ChannelRow)
    rw [← hch] at h
    exact (List.mem_filter.mp h).1
  apply filter_eq_singleton_of_nodup _ _ (nodup_eraseDupKeys _)
  · rw [mem_eraseDupKeys]
    rcases exists_tuple_with_key st userID C title ntf hcmmem hchmem with ⟨t, ht, hkey⟩
    rw [← hkey]
    exact List.mem_map_of_mem tupleKey ht
  · intro k hk
    constructor
    · intro hkC
      rw [mem_eraseDupKeys] at hk
      rcases List.mem_map.mp hk with ⟨t, ht, rfl⟩
      rcases mem_userWorkspaceTuples ht with ⟨_, hchm, _, _⟩
      have hid : t.ch.id = C := by simpa [tupleKey] using hkC
      have hmem2 : t.ch ∈ st.channels.filter (fun ch => ch.id == C) :=
        List.mem_filter.mpr ⟨hchm, by simp [hid]⟩
      rw [hch] at hmem2
      have := List.mem_singleton.mp hmem2
      simp [tupleKey, this]
    · rintro rfl
      simp

/-- Helper: for a user who is a member of channel C (with exactly one
membership row for (user, C) and exactly one channel row with id C, as the
primary keys guarantee), `GetUserWorkspaces` under a dialect whose filter
fragment is valid SQL succeeds and returns exactly one row for C, whose
board count is the number of blocks of type board in C passing that
filter — in particular a count of 0, not an omitted row, when no board
matches.  Of the program's two recognized dialects only PostgreSQL
satisfies the validity hypothesis: the MySQL fragment is invalid SQL and
its query always errors (see the C1 theorem below). -/
theorem GetUserWorkspaces_board_counts_of_valid_filter (dbType : String) (st : DBState)
    (userID C title : String) (ntf : String → Bool)
    (hdialect : dialectNonTemplateFilter dbType = some (NonTemplateFilter.valid ntf))
    (hmem : st.channelMembers.filter
        (fun cm => cm.userId == userID && cm.channelId == C) = [⟨userID, C⟩])
    (hch : st.channels.filter (fun ch => ch.id == C) = [⟨C, title⟩]) :
    ∃ l, GetUserWorkspaces dbType st userID = Except.ok l ∧
      l.filter (fun uw => uw.id == C) =
        [⟨C, title,
          Int.ofNat ((st.blocks.filter (boardBlockMatches ntf C)).length)⟩] := by
  have hGU : GetUserWorkspaces dbType st userID =
      userWorkspacesFromRows (groupRows (userWorkspaceTuples st userID ntf)) := by
    unfold GetUserWorkspaces
    rw [hdialect]
  have hok : userWorkspacesFromRows (groupRows (userWorkspaceTuples st userID ntf)) =
      Except.ok ((eraseDupKeys ((userWorkspaceTuples st userID ntf).map tupleKey)).map
        (fun k => ⟨k.1, k.2,
          Int.ofNat (groupCount (userWorkspaceTuples st userID ntf) k)⟩)) := by
    rw [userWorkspacesFromRows_eq_mapM]
    unfold groupRows
    rw [mapM_scan_of_map
      (fun k : String × String =>
        [SqlValue.s k.1, SqlValue.s k.2,
          SqlValue.i (Int.ofNat (groupCount (userWorkspaceTuples st userID ntf) k))])
      (fun k : String × String =>
        (⟨k.1, k.2, Int.ofNat (groupCount (userWorkspaceTuples st userID ntf) k)⟩ :
          UserWorkspace))
      (fun k => rfl)]
  refine ⟨_, hGU.trans hok, ?_⟩
  rw [List.filter_map]
  have hfc : (eraseDupKeys ((userWorkspaceTuples st userID ntf).map tupleKey)).filter
      ((fun uw : UserWorkspace => uw.id == C) ∘ (fun k : String × String =>
        (⟨k.1, k.2, Int.ofNat (groupCount (userWorkspaceTuples st userID ntf) k)⟩ :
          UserWorkspace))) =
      (eraseDupKeys ((userWorkspaceTuples st userID ntf).map tupleKey)).filter
        (fun k : String × String => k.1 == C) :=
    List.filter_congr (fun k _ => rfl)
  rw [hfc, keys_filter_eq st userID C title ntf hmem hch, List.map_singleton,
    groupCount_eq st userID C title ntf hmem hch]

/-- Demo store: user1 belongs to chan1 (two non-template boards, one
template board and one non-board card) and to chan2 (no blocks at all). -/
def demoStore : DBState :=
  ⟨[],
   [⟨"user1", "chan1"⟩, ⟨"user1", "chan2"⟩],
   [⟨"chan1", "Channel One"⟩, ⟨"chan2", "Channel Two"⟩],
   [⟨"b1", "chan1", "board", "\x7b\"isTemplate\":false\x7d"⟩,
    ⟨"b2", "chan1", "board", "\x7b\"isTemplate\":false,\"title\":\"x\"\x7d"⟩,
    ⟨"b3", "chan1", "board", "\x7b\"isTemplate\":true\x7d"⟩,
    ⟨"b4", "chan1", "card", "\x7b\"isTemplate\":false\x7d"⟩]⟩

/-- Example: under PostgreSQL — the only recognized dialect whose filter
fragment is valid SQL — chan1 of the demo store comes back with board
count 2 (the template board and the non-board card are not counted) and
chan2 comes back as a present row with count 0, not an omitted row. -/
theorem GetUserWorkspaces_postgres_board_counts_demo :
    (∃ l, GetUserWorkspaces "postgres" demoStore "user1" = Except.ok l ∧
      l.filter (fun uw => uw.id == "chan1") = [⟨"chan1", "Channel One", 2⟩]) ∧
    (∃ l, GetUserWorkspaces "postgres" demoStore "user1" = Except.ok l ∧
      l.filter (fun uw => uw.id == "chan2") = [⟨"chan2", "Channel Two", 0⟩]) :=
  ⟨GetUserWorkspaces_board_counts_of_valid_filter "postgres" demoStore "user1"
      "chan1" "Channel One" postgresNonTemplateFilter rfl rfl rfl,
   GetUserWorkspaces_board_counts_of_valid_filter "postgres" demoStore "user1"
      "chan2" "Channel Two" postgresNonTemplateFilter rfl rfl rfl⟩

/-- C1 (code bug): the MySQL branch of `nonTemplateFilter` is built without
quotes around its LIKE pattern (workspaces.go:163), so the fragment is not
valid MySQL and the built query is rejected by the engine: on the MySQL
dialect `GetUserWorkspaces` always fails with the query error, for every
store state and user, and in particular never returns the per-channel
board counts the claim states for both recognized dialects — e.g. on
`demoStore` with user1, where the intended counts would be 2 for chan1 and
0 for chan2 (as PostgreSQL produces). -/
theorem GetUserWorkspaces_mysql_query_error (st : DBState) (userID : String) :
    GetUserWorkspaces mysqlDBType st userID = Except.error StoreErr.queryError := rfl

end Focalboard
